import Mathlib

/-!
Verification of the hercules data-access layer.

This file gives a shallow embedding of the parameter-grid index
(`hercules/dataset.py`) and of the telemetry decoder's record/calibration
logic (`hercules/eggreader.py`), and proves the spec-level properties about
them.  Parameter values are modelled as `Int`, numpy float arithmetic on
calibration as exact `ℚ`, file-system paths as strings joined with `/`, and
Python exceptions as explicit error values in `Except`.
-/

namespace Hercules

/-- One entry of a `ConfigList` as consumed by `Dataset._make_index`: the
configuration's parameter values in the shared field order
(`get_config_data().values()`) and its run path (`sim_name`). -/
structure RunConfig where
  values : List Int
  simName : String
  deriving DecidableEq

/-- Insert a value into a strictly ascending list, keeping it strictly
ascending and duplicate-free. -/
def insertUnique (x : Int) : List Int → List Int
  | [] => [x]
  | y :: ys =>
    if x < y then x :: y :: ys
    else if x = y then y :: ys
    else y :: insertUnique x ys

/-- `np.sort(np.unique(vals))` at the end of `Dataset._make_index`: the
sorted list of the distinct values observed for one parameter field. -/
def makeAxis (vals : List Int) : List Int :=
  vals.foldr insertUnique []

/-- Python dict lookup on the insertion-ordered association list modelling
`self._index`: repeated assignment to the same key overwrites, so the LAST
binding of a key wins. -/
def dictGet (idx : List (List Int × String)) (key : List Int) : Option String :=
  match idx with
  | [] => none
  | q :: rest =>
    match dictGet rest key with
    | some r => some r
    | none => if q.1 = key then some q.2 else none

/-- `self._directory / sim_path`: path join of the dataset root with the
stored run-relative path. -/
def joinPath (dir rel : String) : String := dir ++ "/" ++ rel

/-- The `Dataset` object state after `__init__` (or as recovered from a
pickle).  `version` is `_version` (`none` models an old pickle lacking the
attribute), `metaData` is the opaque `_meta_data` blob, `axesInt` is
`_axes_int`, present exactly when `_interpolate_all` ran; its entry `i`
records the axis data the `i`-th resolver interpolates over. -/
structure Dataset where
  directory : String
  version : Option String
  metaData : String
  axes : List (List Int)
  index : List (List Int × String)
  interpolateAxes : Bool
  axesInt : Option (List (List Int))
  deriving DecidableEq

/-- `Dataset._class_version`. -/
def classVersion : String := "2.0"

/-- `Dataset.__init__` / `_make_index` over a config list: the number of
fields comes from the first configuration, each field's axis is the sorted
deduplicated list of its observed values, and the index maps each
configuration's value tuple to its run path (later duplicates overwrite). -/
def Dataset.build (dir meta : String) (configs : List RunConfig)
    (interpolate : Bool) : Dataset :=
  let n := (configs.headD ⟨[], ""⟩).values.length
  let axes := (List.range n).map
    (fun j => makeAxis (configs.map (fun c => c.values.getD j 0)))
  { directory := dir
    version := some classVersion
    metaData := meta
    axes := axes
    index := configs.map (fun c => (c.values, c.simName))
    interpolateAxes := interpolate
    axesInt := if interpolate then some axes else none }

/-- `tuple(len(ax) for ax in self._axes)`. -/
def Dataset.shape (d : Dataset) : List Nat := d.axes.map List.length

/-- Nearest element of `a :: rest` to the query `q`; on a tie the earlier
element is kept, which on an ascending axis is the smaller value, matching
scipy's `kind=nearest` tie-breaking. -/
def nearestIn (q a : Int) (rest : List Int) : Int :=
  rest.foldl (fun best c => if (q - c).natAbs < (q - best).natAbs then c else best) a

/-- One axis resolver applied to a query, i.e. `self._axes_int[i](params[i]).item()`
with the resolver built by `Dataset._interpolate`: an axis with more than one
point gets `scipy.interpolate.interp1d(ax, ax, kind=nearest, fill_value=extrapolate)`
(nearest grid value, clamped beyond the range); a shorter axis gets
`Constant(ax)` whose call returns the whole axis array, so `.item()` yields
the only element of a singleton axis and raises on an empty one (`none`). -/
def resolveNearest : List Int → Int → Option Int
  | [], _ => none
  | [a], _ => some a
  | a :: b :: rest, q => some (nearestIn q a (b :: rest))

/-- numpy integer indexing of a 1-d array: negative indices wrap around
once, anything else out of range raises `IndexError` (`none`). -/
def npGet (ax : List Int) (i : Int) : Option Int :=
  if 0 ≤ i then ax[i.toNat]?
  else if -(ax.length : Int) ≤ i then ax[(i + ax.length).toNat]?
  else none

/-- The Python exceptions of the `Dataset` query paths, one constructor per
raise site (plus the two failures Python produces without an explicit
`raise`: a missing `_axes_int` attribute and `.item()` on an empty array). -/
inductive Err where
  | arityError
  | notInterpolated
  | attributeMissing
  | itemError
  | indexOut
  | badMethod
  | keyError (key : List Int)
  deriving DecidableEq

/-- Truthiness of `self._interpolate` as tested by the guard
`if not self._interpolate:` in `get_path`.  `_interpolate` is a method of
the class, so the attribute lookup yields a bound method object, which is
truthy for every instance. -/
def interpolateMethodTruthy (_d : Dataset) : Bool := true

/-- The comprehension `[self._axes_int[i](params[i]).item() for i in range(len(params))]`,
evaluated left to right; the first failing entry raises.  The attribute
access `self._axes_int` sits inside the comprehension body, so it is
evaluated once per iteration and never for an empty `params`: an empty
query yields `[]` without touching `_axes_int`, while a non-empty one
raises `AttributeError` on its first iteration when `_axes_int` was never
created (`none`). -/
def interpKey : Option (List (List Int)) → List Int → Except Err (List Int)
  | _, [] => .ok []
  | none, _ :: _ => .error .attributeMissing
  | some [], _ :: _ => .error .indexOut
  | some (ax :: axs), q :: qs =>
    match resolveNearest ax q with
    | none => .error .itemError
    | some v => (interpKey (some axs) qs).map (fun l => v :: l)

/-- The comprehension `[self._axes[i][params[i]] for i in range(len(params))]`,
evaluated left to right; the first failing entry raises. -/
def indexKey : List (List Int) → List Int → Except Err (List Int)
  | _, [] => .ok []
  | [], _ :: _ => .error .indexOut
  | ax :: axs, q :: qs =>
    match npGet ax q with
    | none => .error .indexOut
    | some v => (indexKey axs qs).map (fun l => v :: l)

/-- The `method` dispatch of `Dataset.get_path` computing the lookup key. -/
def keyOf (d : Dataset) (params : List Int) : String → Except Err (List Int)
  | "interpolated" =>
    if interpolateMethodTruthy d = false then .error .notInterpolated
    else interpKey d.axesInt params
  | "index" => indexKey d.axes params
  | "exact" => .ok params
  | _ => .error .badMethod

/-- `Dataset.get_path`: arity check, key resolution by method, then the
index lookup, returning the resolved parameter tuple with the joined
absolute path. -/
def Dataset.getPath (d : Dataset) (params : List Int) (method : String) :
    Except Err (List Int × String) :=
  if params.length ≠ d.axes.length then .error .arityError
  else
    match keyOf d params method with
    | .error e => .error e
    | .ok key =>
      match dictGet d.index key with
      | none => .error (.keyError key)
      | some p => .ok (key, joinPath d.directory p)

/-- The iterator fields `_it_index` and `_it_stop` that `__iter__` stores ON
the `Dataset` object itself: the object doubles as its own (only) iterator. -/
structure PyDataset where
  ds : Dataset
  itIndex : List Nat
  itStop : Bool
  deriving DecidableEq

/-- `Dataset.__iter__` called on a dataset whose iterator fields were never
set before: resets the cursor to the all-zero tuple. -/
def Dataset.iterCall (d : Dataset) : PyDataset :=
  ⟨d, List.replicate d.shape.length 0, false⟩

/-- `Dataset.__iter__` on an object that may already be mid-iteration: it
overwrites `_it_index`/`_it_stop` of the SAME object and returns `self`. -/
def PyDataset.iterCall (p : PyDataset) : PyDataset :=
  { p with itIndex := List.replicate p.ds.shape.length 0, itStop := false }

/-- The odometer step of `Dataset.__next__`, on the REVERSED index list:
increment the last position; when it reaches the axis size, reset it to 0
and carry leftwards. -/
def incRev : List Nat → List Nat → List Nat
  | s :: ss, i :: rest => if i + 1 = s then 0 :: incRev ss rest else (i + 1) :: rest
  | _, rest => rest

/-- `new_index` as computed by the loop in `Dataset.__next__`. -/
def incIndex (shape idx : List Nat) : List Nat :=
  (incRev shape.reverse idx.reverse).reverse

/-- `Dataset.__next__`: `none` models `StopIteration`; otherwise the result
of `self.get_path(old_index, method=index)` (an uncaught exception if that
raises) together with the updated object.  The cursor is advanced BEFORE the
lookup runs. -/
def PyDataset.nextCall (p : PyDataset) :
    Option (Except Err (List Int × String) × PyDataset) :=
  if p.itStop then none
  else
    let newIndex := incIndex p.ds.shape p.itIndex
    let stop := newIndex == List.replicate p.ds.shape.length 0
    some (p.ds.getPath (p.itIndex.map Int.ofNat) "index",
          { p with itIndex := newIndex, itStop := stop })

/-- A Python `for` loop over the iterator, bounded by `fuel` calls: collects
the yielded entries until `StopIteration`; an exception raised by `__next__`
aborts the loop and appears as a final error entry. -/
def drain (fuel : Nat) (p : PyDataset) : List (Except Err (List Int × String)) :=
  match fuel with
  | 0 => []
  | fuel' + 1 =>
    match p.nextCall with
    | none => []
    | some (r, p') =>
      match r with
      | .error e => [.error e]
      | .ok v => .ok v :: drain fuel' p'

/-- Advance the iterator by `k` calls to `__next__`, discarding the yielded
entries; `none` once `StopIteration` has been hit. -/
def stepN : Nat → PyDataset → Option PyDataset
  | 0, p => some p
  | k + 1, p =>
    match p.nextCall with
    | none => none
    | some (_, p') => stepN k p'

/-- The failures of `Dataset.load`; both are `RuntimeError` in the source,
one per raise site. -/
inductive LoadErr where
  | typeMismatch
  | versionMismatch (v : String)
  deriving DecidableEq

/-- The object recovered by `pickle.load` inside `Dataset.load`: either not
an instance of the current `Dataset` class, or a dataset object state. -/
inductive Pickled where
  | notADataset
  | dataset (d : Dataset)
  deriving DecidableEq

/-- `Dataset.load` after the pickle read: reject a wrong type, default a
missing `_version` attribute to `1.0`, reject any version other than the
current `_class_version`, and on success rebase `_directory` to the load
path, leaving every other field untouched. -/
def Dataset.load (path : String) (loaded : Pickled) : Except LoadErr Dataset :=
  match loaded with
  | .notADataset => .error .typeMismatch
  | .dataset d =>
    let instanceVersion := d.version.getD "1.0"
    if instanceVersion ≠ classVersion then .error (.versionMismatch instanceVersion)
    else .ok { d with directory := path }

/-- Helper for slicing: keep an element when the countdown hits 0, then
restart the countdown at `step - 1`. -/
def takeEveryAux (step : Nat) : Nat → List α → List α
  | _, [] => []
  | 0, a :: rest => a :: takeEveryAux step (step - 1) rest
  | c + 1, _ :: rest => takeEveryAux step c rest

/-- Every `step`-th element of a list starting with its head (the stepping
part of `l[start::step]` slicing, `step ≥ 1`). -/
def takeEvery (step : Nat) (l : List α) : List α :=
  takeEveryAux step 0 l

/-- Python/numpy slicing `l[start::step]` with a positive step. -/
def strideSlice (l : List α) (start step : Nat) : List α :=
  takeEvery step (l.drop start)

/-- `_to_complex(data) = data[::2] + 1j*data[1::2]`: even-index raw codes are
real parts, odd-index codes imaginary parts; numpy's elementwise `+` demands
both slices have the same length, so an odd-length block raises (`none`).
A complex sample is modelled as a (real, imaginary) pair of codes. -/
def toComplex (data : List Int) : Option (List (Int × Int)) :=
  let re := strideSlice data 0 2
  let im := strideSlice data 1 2
  if re.length = im.length then some (re.zip im) else none

/-- The `ch_format == 0` branch of `LocustP3File._read_ts`, verbatim: for
each channel `k` the loop REBINDS `temp_data_copy = []` before appending
`temp_data[k::n_ch]`, so the list appended to `temp` after the loop holds
only the final channel's slice (and is empty when there are no channels). -/
def packedRuns (nCh : Nat) (td : List (Int × Int)) : List (List (Int × Int)) :=
  (List.range nCh).foldl (fun _acc k => [strideSlice td k nCh]) []

/-- Decoding of one raw record under channel format 0 (packed layout):
complex reconstruction followed by the per-channel loop above. -/
def decodeRecordPacked (nCh : Nat) (raw : List Int) :
    Option (List (List (Int × Int))) :=
  (toComplex raw).map (packedRuns nCh)

/-- The per-channel decomposition that the `_read_ts` docstring (shape
`(n_acquisitions, n_records, n_channels, record_size)`) and the spec
describe for the packed layout: channel `k` receives the stride-`n_ch`
slice of the complex series starting at offset `k`. -/
def packedRunsPerChannel (nCh : Nat) (td : List (Int × Int)) :
    List (List (Int × Int)) :=
  (List.range nCh).map (fun k => strideSlice td k nCh)

/-- `LocustP3File._int_max`: dict lookup of the maximum digitizer code for a
bit depth; any unlisted depth raises `KeyError` (`none`). -/
def intMax (bitDepth : Nat) : Option Nat :=
  if bitDepth = 8 then some 255
  else if bitDepth = 16 then some 65535
  else none

/-- The per-channel attributes read by `_convert_to_voltage`. -/
structure ChannelAttrs where
  bitDepth : Nat
  voltageRange : ℚ
  voltageOffset : ℚ
  deriving DecidableEq

/-- The failure of `_convert_to_voltage`: the `KeyError` from looking up an
unsupported bit depth in `_int_max`. -/
inductive CalErr where
  | unsupportedDepth
  deriving DecidableEq

/-- `LocustP3File._convert_to_voltage` on one raw code, with exact rational
arithmetic in place of floats:
`data / self._int_max[bit_depth] * voltage_range`.  The channel's
`voltage_offset` is read by the source but never used in the formula. -/
def convertToVoltage (attr : ChannelAttrs) (data : ℚ) : Except CalErr ℚ :=
  match intMax attr.bitDepth with
  | none => .error .unsupportedDepth
  | some m => .ok (data / (m : ℚ) * attr.voltageRange)

end Hercules

deriving instance DecidableEq for Except

namespace Hercules

/-! ### Helper lemmas about `makeAxis` -/

theorem mem_insertUnique {x v : Int} {l : List Int} :
    v ∈ insertUnique x l ↔ v = x ∨ v ∈ l := by
  induction l with
  | nil => simp [insertUnique]
  | cons y ys ih =>
    by_cases h1 : x < y
    · simp [insertUnique, h1]
    · by_cases h2 : x = y
      · subst h2
        have hx : insertUnique x (x :: ys) = x :: ys := by
          rw [insertUnique, if_neg h1, if_pos rfl]
        rw [hx, List.mem_cons]
        tauto
      · simp only [insertUnique, if_neg h1, if_neg h2, List.mem_cons, ih]
        tauto

theorem sorted_insertUnique {x : Int} {l : List Int} (h : l.Sorted (· < ·)) :
    (insertUnique x l).Sorted (· < ·) := by
  induction l with
  | nil => simp [insertUnique]
  | cons y ys ih =>
    rw [List.sorted_cons] at h
    obtain ⟨hy, hys⟩ := h
    by_cases h1 : x < y
    · simp only [insertUnique, if_pos h1, List.sorted_cons, List.mem_cons]
      refine ⟨?_, hy, hys⟩
      rintro b (rfl | hb)
      · exact h1
      · exact lt_trans h1 (hy b hb)
    · by_cases h2 : x = y
      · subst h2
        have hx : insertUnique x (x :: ys) = x :: ys := by
          rw [insertUnique, if_neg h1, if_pos rfl]
        rw [hx, List.sorted_cons]
        exact ⟨hy, hys⟩
      · have h3 : y < x := by omega
        simp only [insertUnique, if_neg h1, if_neg h2, List.sorted_cons]
        refine ⟨?_, ih hys⟩
        intro b hb
        rcases mem_insertUnique.mp hb with rfl | hb
        · exact h3
        · exact hy b hb

theorem sorted_makeAxis (vals : List Int) : (makeAxis vals).Sorted (· < ·) := by
  induction vals with
  | nil => simp [makeAxis]
  | cons a rest ih => exact sorted_insertUnique ih

theorem mem_makeAxis {v : Int} {vals : List Int} :
    v ∈ makeAxis vals ↔ v ∈ vals := by
  induction vals with
  | nil => simp [makeAxis]
  | cons a rest ih =>
    show v ∈ insertUnique a (makeAxis rest) ↔ _
    rw [mem_insertUnique, ih, List.mem_cons]

theorem makeAxis_perm {vals vals' : List Int} (h : vals.Perm vals') :
    makeAxis vals = makeAxis vals' := by
  refine List.eq_of_perm_of_sorted ?_ (sorted_makeAxis vals).le_of_lt
    (sorted_makeAxis vals').le_of_lt
  rw [List.perm_ext_iff_of_nodup (sorted_makeAxis vals).nodup
    (sorted_makeAxis vals').nodup]
  intro a
  rw [mem_makeAxis, mem_makeAxis]
  exact ⟨fun ha => h.mem_iff.mp ha, fun ha => h.mem_iff.mpr ha⟩

theorem count_makeAxis (vals : List Int) (v : Int) :
    (makeAxis vals).count v = if v ∈ vals then 1 else 0 := by
  by_cases h : v ∈ vals
  · rw [if_pos h]
    exact List.count_eq_one_of_mem (sorted_makeAxis vals).nodup (mem_makeAxis.mpr h)
  · rw [if_neg h]
    exact List.count_eq_zero.mpr (fun hc => h (mem_makeAxis.mp hc))

/-! ### Helper lemmas about `dictGet` and `Dataset.build` -/

theorem dictGet_eq_none {idx : List (List Int × String)} {key : List Int}
    (h : ∀ q ∈ idx, q.1 ≠ key) : dictGet idx key = none := by
  induction idx with
  | nil => rfl
  | cons q rest ih =>
    rw [dictGet, ih (fun r hr => h r (List.mem_cons_of_mem q hr))]
    simp [h q (List.mem_cons_self q rest)]

theorem dictGet_of_nodup {idx : List (List Int × String)}
    (hnd : (idx.map Prod.fst).Nodup) {key : List Int} {p : String}
    (hmem : (key, p) ∈ idx) : dictGet idx key = some p := by
  induction idx with
  | nil => cases hmem
  | cons q rest ih =>
    rw [List.map_cons, List.nodup_cons] at hnd
    obtain ⟨hq, hrest⟩ := hnd
    rcases List.mem_cons.mp hmem with rfl | hmem'
    · have hnone : dictGet rest key = none := by
        apply dictGet_eq_none
        intro r hr hcontra
        have hr1 : r.1 ∈ rest.map Prod.fst := List.mem_map_of_mem Prod.fst hr
        rw [hcontra] at hr1
        exact hq hr1
      rw [dictGet, hnone]
      simp
    · rw [dictGet, ih hrest hmem']

theorem build_axes_length (dir meta : String) (configs : List RunConfig)
    (intp : Bool) :
    (Dataset.build dir meta configs intp).axes.length
      = (configs.headD ⟨[], ""⟩).values.length := by
  simp [Dataset.build]

theorem build_axes_getD (dir meta : String) (configs : List RunConfig)
    (intp : Bool) (j : Nat)
    (hj : j < (configs.headD ⟨[], ""⟩).values.length) :
    (Dataset.build dir meta configs intp).axes.getD j []
      = makeAxis (configs.map (fun c => c.values.getD j 0)) := by
  have hj' : j < (configs.head?.getD ⟨[], ""⟩).values.length := by
    cases configs <;> exact hj
  simp [Dataset.build, List.getD_eq_getElem?_getD, List.getElem?_map,
    List.getElem?_range hj']

theorem interpKey_ne_notInterpolated (qs : List Int)
    (axsOpt : Option (List (List Int))) :
    interpKey axsOpt qs ≠ .error .notInterpolated := by
  induction qs generalizing axsOpt with
  | nil =>
    match axsOpt with
    | none => simp [interpKey]
    | some axs => simp [interpKey]
  | cons q qs ih =>
    match axsOpt with
    | none => simp [interpKey]
    | some [] => simp [interpKey]
    | some (ax :: axs) =>
      rw [interpKey]
      cases hr : resolveNearest ax q with
      | none => simp
      | some v =>
        cases hk : interpKey (some axs) qs with
        | error e =>
          have hne := ih (some axs)
          rw [hk] at hne
          simpa [Except.map] using hne
        | ok l => simp [Except.map]

theorem getPath_exact (d : Dataset) (params : List Int)
    (hl : params.length = d.axes.length) :
    d.getPath params "exact"
      = match dictGet d.index params with
        | none => .error (.keyError params)
        | some p => .ok (params, joinPath d.directory p) := by
  rw [Dataset.getPath, if_neg (by rw [hl]; exact fun h => h rfl)]
  rfl

theorem getPath_index (d : Dataset) (params : List Int)
    (hl : params.length = d.axes.length) :
    d.getPath params "index"
      = match indexKey d.axes params with
        | .error e => .error e
        | .ok key =>
          match dictGet d.index key with
          | none => .error (.keyError key)
          | some p => .ok (key, joinPath d.directory p) := by
  rw [Dataset.getPath, if_neg (by rw [hl]; exact fun h => h rfl)]
  rfl

/-! ### The claims -/

/-- C1, counterexample: the pair `([0], "a")` is part of the build input of
a dataset, yet `get_path([0], method=exact)` does not return that pair's
path — the later duplicate vector overwrote the dict entry, so the claim
"for every pair (v, p), exact lookup of v returns (v, root/p)" is false as
stated. -/
theorem exact_roundtrip_cex :
    RunConfig.mk [0] "a" ∈ [RunConfig.mk [0] "a", RunConfig.mk [0] "b"]
    ∧ (Dataset.build "d" "m" [⟨[0], "a"⟩, ⟨[0], "b"⟩] true).getPath [0] "exact"
        = .ok ([0], joinPath "d" "b")
    ∧ joinPath "d" "b" ≠ joinPath "d" "a" := by
  decide

/-- C1, amended: for every non-empty build input whose parameter vectors
are pairwise distinct (all sharing one field ordering of arity `n`), exact
lookup of any built vector returns exactly that vector together with the
dataset root joined with that pair's run path. -/
theorem exact_roundtrip_distinct (dir meta : String) (intp : Bool)
    (configs : List RunConfig) (n : Nat)
    (hlen : ∀ c ∈ configs, c.values.length = n)
    (hnodup : (configs.map RunConfig.values).Nodup)
    (v : List Int) (p : String) (hmem : RunConfig.mk v p ∈ configs) :
    (Dataset.build dir meta configs intp).getPath v "exact"
      = .ok (v, joinPath dir p) := by
  have hne : configs ≠ [] := by
    intro h
    rw [h] at hmem
    cases hmem
  obtain ⟨c0, t, rfl⟩ := List.exists_cons_of_ne_nil hne
  have haxlen : (Dataset.build dir meta (c0 :: t) intp).axes.length = n := by
    rw [build_axes_length]
    exact hlen c0 (List.mem_cons_self c0 t)
  have hv : v.length = n := hlen ⟨v, p⟩ hmem
  rw [getPath_exact _ _ (by rw [hv, haxlen])]
  have hdict : dictGet (Dataset.build dir meta (c0 :: t) intp).index v
      = some p := by
    apply dictGet_of_nodup
    · show (((c0 :: t).map (fun c => (c.values, c.simName))).map Prod.fst).Nodup
      rw [List.map_map]
      exact hnodup
    · show (v, p) ∈ (c0 :: t).map (fun c => (c.values, c.simName))
      exact List.mem_map_of_mem _ hmem
  rw [hdict]
  rfl

/-- C1, witness for the amended theorem at a concrete two-run input. -/
theorem exact_roundtrip_distinct_witness :
    (Dataset.build "d" "m" [⟨[2], "a"⟩, ⟨[7], "b"⟩] true).getPath [7] "exact"
      = .ok ([7], joinPath "d" "b") :=
  exact_roundtrip_distinct "d" "m" true [⟨[2], "a"⟩, ⟨[7], "b"⟩] 1
    (by decide) (by decide) [7] "b" (by decide)

/-- C2 (code bug): under channel format 0 with 2 channels, the decoder is
claimed (and documented in the `_read_ts` docstring) to split the complex
series into one stride-2 run per channel, i.e.
`[[(1,2),(5,6)], [(3,4),(7,8)]]` for the raw block `[1,...,8]`; the code
instead returns a single run holding only the LAST channel's slice, because
`temp_data_copy = []` is re-initialised inside the per-channel loop. -/
theorem packed_decode_single_run :
    decodeRecordPacked 2 [1, 2, 3, 4, 5, 6, 7, 8] = some [[(3, 4), (7, 8)]]
    ∧ packedRunsPerChannel 2 [(1, 2), (3, 4), (5, 6), (7, 8)]
        = [[(1, 2), (5, 6)], [(3, 4), (7, 8)]]
    ∧ (decodeRecordPacked 2 [1, 2, 3, 4, 5, 6, 7, 8]).map List.length
        ≠ some 2 := by
  decide

/-- C3, counterexample: iterating a sparse dataset (grid `{0,1} × {5,6}`
with the combination `(1,6)` never built) does NOT skip the absent
combination: the first three present combinations are yielded and then
`__next__` raises an uncaught `KeyError (1,6)`, aborting the iteration. -/
theorem sparse_iteration_cex :
    drain 10 (Dataset.build "d" "m"
        [⟨[0, 5], "r0"⟩, ⟨[0, 6], "r1"⟩, ⟨[1, 5], "r2"⟩] true).iterCall
      = [.ok ([0, 5], joinPath "d" "r0"), .ok ([0, 6], joinPath "d" "r1"),
         .ok ([1, 5], joinPath "d" "r2"), .error (.keyError [1, 6])] := by
  decide

/-- C3, amended: absent combinations are fatal, not skipped: whenever the
iterator is live and the odometer's current position resolves (through the
axes) to a combination absent from the index, the `__next__` call raises
`KeyError` with that resolved combination. -/
theorem sparse_next_raises (p : PyDataset) (key : List Int)
    (hstop : p.itStop = false)
    (hlen : p.itIndex.length = p.ds.axes.length)
    (hkey : indexKey p.ds.axes (p.itIndex.map Int.ofNat) = .ok key)
    (habsent : dictGet p.ds.index key = none) :
    p.nextCall.map Prod.fst = some (.error (.keyError key)) := by
  rw [PyDataset.nextCall, if_neg (by simp [hstop])]
  refine congrArg some ?_
  show p.ds.getPath (p.itIndex.map Int.ofNat) "index" = .error (.keyError key)
  rw [getPath_index _ _ (by rw [List.length_map, hlen]), hkey]
  show (match dictGet p.ds.index key with
        | none => Except.error (Err.keyError key)
        | some q => Except.ok (key, joinPath p.ds.directory q))
      = Except.error (Err.keyError key)
  rw [habsent]

/-- C3, witness for the amended theorem: the sparse dataset above, at the
cursor position `(1,1)` (which resolves to the absent combination `(1,6)`). -/
theorem sparse_next_raises_witness :
    (PyDataset.mk (Dataset.build "d" "m"
        [⟨[0, 5], "r0"⟩, ⟨[0, 6], "r1"⟩, ⟨[1, 5], "r2"⟩] true) [1, 1] false).nextCall.map Prod.fst
      = some (.error (.keyError [1, 6])) :=
  sparse_next_raises _ [1, 6] rfl (by decide) (by decide) (by decide)

/-- C4: on the dense grid with axes `{0,1} × {3} × {5,6}` the iteration
yields exactly the 4 combinations with the last field varying fastest, in
the order (0,3,5),(0,3,6),(1,3,5),(1,3,6); after the 4th yield the cursor
is back at the all-zero state with the stop flag set, and the 5th
`__next__` call raises `StopIteration`. -/
theorem dense_enumeration_order :
    drain 10 (Dataset.build "d" "m"
        [⟨[0, 3, 5], "run0"⟩, ⟨[0, 3, 6], "run1"⟩,
         ⟨[1, 3, 5], "run2"⟩, ⟨[1, 3, 6], "run3"⟩] true).iterCall
      = [.ok ([0, 3, 5], joinPath "d" "run0"), .ok ([0, 3, 6], joinPath "d" "run1"),
         .ok ([1, 3, 5], joinPath "d" "run2"), .ok ([1, 3, 6], joinPath "d" "run3")]
    ∧ (stepN 4 (Dataset.build "d" "m"
        [⟨[0, 3, 5], "run0"⟩, ⟨[0, 3, 6], "run1"⟩,
         ⟨[1, 3, 5], "run2"⟩, ⟨[1, 3, 6], "run3"⟩] true).iterCall).map
          (fun p => (p.itIndex, p.itStop)) = some ([0, 0, 0], true)
    ∧ stepN 5 (Dataset.build "d" "m"
        [⟨[0, 3, 5], "run0"⟩, ⟨[0, 3, 6], "run1"⟩,
         ⟨[1, 3, 5], "run2"⟩, ⟨[1, 3, 6], "run3"⟩] true).iterCall = none := by
  decide

/-- C5: the 4-run dataset with vectors (0,3,5),(0,3,6),(1,3,5),(1,3,6) has
shape (2,1,2), and the snapped lookup of (100,100,100) clamps each axis to
its nearest present value — (1,3,6), the single-valued middle axis
resolving constantly to 3 — returning that run's path. -/
theorem snapped_clamp_scenario :
    (Dataset.build "d" "m"
        [⟨[0, 3, 5], "run0"⟩, ⟨[0, 3, 6], "run1"⟩,
         ⟨[1, 3, 5], "run2"⟩, ⟨[1, 3, 6], "run3"⟩] true).shape = [2, 1, 2]
    ∧ (Dataset.build "d" "m"
        [⟨[0, 3, 5], "run0"⟩, ⟨[0, 3, 6], "run1"⟩,
         ⟨[1, 3, 5], "run2"⟩, ⟨[1, 3, 6], "run3"⟩] true).getPath
          [100, 100, 100] "interpolated"
        = .ok ([1, 3, 6], joinPath "d" "run3") := by
  decide

/-- C6: for every field of a dataset built from a non-empty uniform-arity
config list, the stored axis is strictly increasing, contains each value
observed for that field across the build pairs exactly once (and nothing
else), and is unchanged under any permutation of the input pairs (and under
changes of directory, metadata or the interpolate flag). -/
theorem axis_invariant (dir meta dir2 meta2 : String) (intp intp2 : Bool)
    (configs configs2 : List RunConfig) (n : Nat)
    (hne : configs ≠ [])
    (hlen : ∀ c ∈ configs, c.values.length = n)
    (hperm : configs2.Perm configs) (j : Nat) (hj : j < n) :
    ((Dataset.build dir meta configs intp).axes.getD j []).Sorted (· < ·)
    ∧ (∀ v : Int, ((Dataset.build dir meta configs intp).axes.getD j []).count v
        = if v ∈ configs.map (fun c => c.values.getD j 0) then 1 else 0)
    ∧ (Dataset.build dir2 meta2 configs2 intp2).axes.getD j []
        = (Dataset.build dir meta configs intp).axes.getD j [] := by
  obtain ⟨c0, t, rfl⟩ := List.exists_cons_of_ne_nil hne
  have hj1 : j < ((c0 :: t).headD ⟨[], ""⟩).values.length := by
    rw [List.headD_cons, hlen c0 (List.mem_cons_self c0 t)]
    exact hj
  have hne2 : configs2 ≠ [] := by
    intro h
    rw [h] at hperm
    rw [List.Perm.nil_eq hperm] at hne
    exact hne rfl
  obtain ⟨c2, t2, rfl⟩ := List.exists_cons_of_ne_nil hne2
  have hj2 : j < ((c2 :: t2).headD ⟨[], ""⟩).values.length := by
    rw [List.headD_cons,
      hlen c2 (hperm.mem_iff.mp (List.mem_cons_self c2 t2))]
    exact hj
  rw [build_axes_getD dir meta (c0 :: t) intp j hj1,
    build_axes_getD dir2 meta2 (c2 :: t2) intp2 j hj2]
  refine ⟨sorted_makeAxis _, count_makeAxis _, ?_⟩
  exact makeAxis_perm (hperm.map (fun c => c.values.getD j 0))

/-- C6, witness: a three-run single-field build with a duplicated value,
and a permutation of it built with different directory/metadata/flag. -/
theorem axis_invariant_witness :
    ((Dataset.build "d" "m" [⟨[3], "a"⟩, ⟨[1], "b"⟩, ⟨[3], "c"⟩] true).axes.getD 0 []).Sorted (· < ·)
    ∧ (∀ v : Int,
        ((Dataset.build "d" "m" [⟨[3], "a"⟩, ⟨[1], "b"⟩, ⟨[3], "c"⟩] true).axes.getD 0 []).count v
          = if v ∈ ([⟨[3], "a"⟩, ⟨[1], "b"⟩, ⟨[3], "c"⟩] : List RunConfig).map
              (fun c => c.values.getD 0 0) then 1 else 0)
    ∧ (Dataset.build "e" "k" [⟨[1], "b"⟩, ⟨[3], "c"⟩, ⟨[3], "a"⟩] false).axes.getD 0 []
        = (Dataset.build "d" "m" [⟨[3], "a"⟩, ⟨[1], "b"⟩, ⟨[3], "c"⟩] true).axes.getD 0 [] :=
  axis_invariant "d" "m" "e" "k" true false
    [⟨[3], "a"⟩, ⟨[1], "b"⟩, ⟨[3], "c"⟩] [⟨[1], "b"⟩, ⟨[3], "c"⟩, ⟨[3], "a"⟩] 1
    (by decide) (by decide) (by decide) 0 (by decide)

/-- C7: for a supported bit depth the calibrated voltage is
`raw / max_code(depth) * voltage_range`, with `max_code(8) = 255` and
`max_code(16) = 65535`; the channel voltage offset plays no role. -/
theorem calibration_formula (attr : ChannelAttrs) (raw : ℚ) :
    (attr.bitDepth = 8 →
      convertToVoltage attr raw = .ok (raw / 255 * attr.voltageRange))
    ∧ (attr.bitDepth = 16 →
      convertToVoltage attr raw = .ok (raw / 65535 * attr.voltageRange)) := by
  constructor <;> intro h <;> simp [convertToVoltage, intMax, h]

/-- C7, witness: bit depth 16, voltage range 2, offset 0: raw code 65535
decodes to 2 and raw code 0 decodes to 0. -/
theorem calibration_formula_witness :
    convertToVoltage ⟨16, 2, 0⟩ 65535 = .ok ((65535 : ℚ) / 65535 * 2)
    ∧ ((65535 : ℚ) / 65535 * 2 = 2)
    ∧ convertToVoltage ⟨16, 2, 0⟩ 0 = .ok ((0 : ℚ) / 65535 * 2)
    ∧ ((0 : ℚ) / 65535 * 2 = 0) :=
  ⟨(calibration_formula ⟨16, 2, 0⟩ 65535).2 rfl, by norm_num,
   (calibration_formula ⟨16, 2, 0⟩ 0).2 rfl, by norm_num⟩

/-- C8, counterexample: on a two-run dataset whose full iteration sequence
is `[r0, r1]`, a first iterator yields `r0`; creating a "second" iterator
by calling `__iter__` again returns the very same object with its cursor
reset, so the next entry the first iterator receives is `r0` again instead
of `r1` — the two iterators do not have independent cursor state. -/
theorem shared_iterator_cex :
    drain 10 (Dataset.build "d" "m" [⟨[0], "r0"⟩, ⟨[1], "r1"⟩] true).iterCall
      = [.ok ([0], joinPath "d" "r0"), .ok ([1], joinPath "d" "r1")]
    ∧ (Dataset.build "d" "m" [⟨[0], "r0"⟩, ⟨[1], "r1"⟩] true).iterCall.nextCall.map Prod.fst
        = some (.ok ([0], joinPath "d" "r0"))
    ∧ (Dataset.build "d" "m" [⟨[0], "r0"⟩, ⟨[1], "r1"⟩] true).iterCall.nextCall.map
          (fun pr => pr.2.iterCall.nextCall.map Prod.fst)
        = some (some (.ok ([0], joinPath "d" "r0")))
    ∧ (Except.ok (([0] : List Int), joinPath "d" "r0") : Except Err (List Int × String))
        ≠ .ok ([1], joinPath "d" "r1") := by
  decide

/-- C8, amended: `__iter__` always returns the same object with the single
shared cursor reset to the all-zero state, regardless of any progress that
object had made; consequently iteration is restartable only in the sense
that a new `__iter__` call makes a full subsequent iteration reproduce the
fresh sequence. -/
theorem shared_iterator_restart (p : PyDataset) (fuel : Nat) :
    p.iterCall = p.ds.iterCall
    ∧ drain fuel p.iterCall = drain fuel p.ds.iterCall := by
  exact ⟨rfl, rfl⟩

/-- C9: `Dataset.load` rejects a pickle that is not a current-class dataset
and rejects any dataset whose declared version (default `1.0` when the
attribute is absent) differs from the class version; on success the result
is the loaded object with its directory root rebased to the load path and
axes, metadata and index unchanged, and its version necessarily matches the
class version. -/
theorem load_version_gate (path : String) (d : Dataset) :
    Dataset.load path .notADataset = .error .typeMismatch
    ∧ (d.version.getD "1.0" ≠ classVersion →
        Dataset.load path (.dataset d)
          = .error (.versionMismatch (d.version.getD "1.0")))
    ∧ (∀ d2, Dataset.load path (.dataset d) = .ok d2 →
        d2.directory = path ∧ d2.axes = d.axes ∧ d2.metaData = d.metaData
          ∧ d2.index = d.index ∧ d.version = some classVersion) := by
  refine ⟨rfl, ?_, ?_⟩
  · intro h
    rw [Dataset.load]
    simp [h]
  · intro d2 h
    rw [Dataset.load] at h
    by_cases hv : d.version.getD "1.0" = classVersion
    · rw [if_neg (by simp [hv])] at h
      have hd2 : d2 = { d with directory := path } := by
        injection h with h2
        exact h2.symm
      subst hd2
      refine ⟨rfl, rfl, rfl, rfl, ?_⟩
      cases hver : d.version with
      | none =>
        rw [hver] at hv
        simp [classVersion] at hv
      | some v =>
        rw [hver] at hv
        simp only [Option.getD_some] at hv
        rw [hv]
    · rw [if_pos (by simp [hv])] at h
      cases h

/-- C9, witness: a version-1.0 pickle is rejected with the version error;
a current-version pickle loads with its directory rebased and the other
fields intact. -/
theorem load_version_gate_witness :
    Dataset.load "p" (.dataset { Dataset.build "d" "m" [⟨[0], "r0"⟩] true
        with version := some "1.0" })
      = .error (.versionMismatch "1.0")
    ∧ ({ Dataset.build "d" "m" [⟨[0], "r0"⟩] true with directory := "p" } : Dataset).directory = "p"
      ∧ ({ Dataset.build "d" "m" [⟨[0], "r0"⟩] true with directory := "p" } : Dataset).axes
          = (Dataset.build "d" "m" [⟨[0], "r0"⟩] true).axes
      ∧ ({ Dataset.build "d" "m" [⟨[0], "r0"⟩] true with directory := "p" } : Dataset).metaData
          = (Dataset.build "d" "m" [⟨[0], "r0"⟩] true).metaData
      ∧ ({ Dataset.build "d" "m" [⟨[0], "r0"⟩] true with directory := "p" } : Dataset).index
          = (Dataset.build "d" "m" [⟨[0], "r0"⟩] true).index
      ∧ (Dataset.build "d" "m" [⟨[0], "r0"⟩] true).version = some classVersion :=
  ⟨(load_version_gate "p" { Dataset.build "d" "m" [⟨[0], "r0"⟩] true
      with version := some "1.0" }).2.1 (by decide),
   (load_version_gate "p" (Dataset.build "d" "m" [⟨[0], "r0"⟩] true)).2.2
     { Dataset.build "d" "m" [⟨[0], "r0"⟩] true with directory := "p" } (by decide)⟩

/-- C10, counterexample: on the zero-field dataset built with
`interpolate=False` (so `_axes_int` was never created), the interpolated
lookup of the empty query does NOT fail: the empty comprehension never
evaluates `self._axes_int`, the key is the empty tuple, and the index
lookup succeeds — refuting the claim's "the call instead fails because
`_axes_int` were never created" for this instance. -/
theorem interp_empty_query_cex :
    (Dataset.build "d" "m" [⟨[], "r0"⟩] false).axesInt = none
    ∧ (Dataset.build "d" "m" [⟨[], "r0"⟩] false).getPath [] "interpolated"
        = .ok ([], joinPath "d" "r0") := by
  decide

/-- C10 (amended): the guard `if not self._interpolate:` in `get_path`
tests the truthiness of a bound method, so the `Dataset is not
interpolated!` error is unreachable for every dataset and query; for a
dataset without interpolated axes (e.g. built with `interpolate=False`)
the interpolated lookup of a NON-EMPTY well-arity query fails with the
`AttributeError` for the missing `_axes_int` (an empty query on a
zero-field dataset never evaluates `_axes_int` and proceeds to the index
lookup). -/
theorem interp_guard_unreachable (d : Dataset) (params : List Int) :
    d.getPath params "interpolated" ≠ .error .notInterpolated
    ∧ (d.axesInt = none → params ≠ [] → params.length = d.axes.length →
        d.getPath params "interpolated" = .error .attributeMissing) := by
  have hko : keyOf d params "interpolated" = interpKey d.axesInt params := rfl
  constructor
  · rw [Dataset.getPath]
    by_cases hl : params.length = d.axes.length
    · rw [if_neg (by rw [hl]; exact fun h => h rfl), hko]
      cases hik : interpKey d.axesInt params with
      | error e =>
        have hne := interpKey_ne_notInterpolated params d.axesInt
        rw [hik] at hne
        simpa using hne
      | ok key =>
        cases hdg : dictGet d.index key <;> simp [hdg]
    · rw [if_pos hl]
      simp
  · intro hax hne hl
    obtain ⟨q, qs, rfl⟩ := List.exists_cons_of_ne_nil hne
    rw [Dataset.getPath, if_neg (by rw [hl]; exact fun h => h rfl), hko, hax]
    rfl

/-- C10, witness: a one-field dataset built with `interpolate=False` at a
non-empty query of matching arity. -/
theorem interp_guard_unreachable_witness :
    (Dataset.build "d" "m" [⟨[0], "r0"⟩] false).getPath [5] "interpolated"
        ≠ .error .notInterpolated
    ∧ (Dataset.build "d" "m" [⟨[0], "r0"⟩] false).getPath [5] "interpolated"
        = .error .attributeMissing :=
  ⟨(interp_guard_unreachable (Dataset.build "d" "m" [⟨[0], "r0"⟩] false) [5]).1,
   (interp_guard_unreachable (Dataset.build "d" "m" [⟨[0], "r0"⟩] false) [5]).2
     rfl (by decide) rfl⟩

end Hercules
